import Mathlib

/-!
Shallow embedding of `src/deserted/multi_tasks_manager.py` (class
`MultiTasksManager`) and proofs about it.

Modelling conventions:
* Python runtime values that flow through the manager are modelled by `PyObj`
  (strings, ints, bools, None); a raised Python exception is a `PyExc`
  carrying its `str(...)` rendering.
* A registered callable is a pure function from its positional and keyword
  arguments to `Except PyExc PyObj` (normal return vs. raised exception).
* The thread-safe `Queue` of task results is modelled as a list in deposit
  order.  Because the N worker threads deposit concurrently, the order of the
  queue content after the barrier is nondeterministic: `runMultiTasks` takes
  the post-barrier queue content (`sink`) as an explicit parameter, and the
  theorems constrain it to be a permutation of the records the execution
  units deposit (each unit deposits exactly one record, see `run_task`).
* Logger calls are modelled as a list of `LogEvent`s recording the level of
  each call; the formatted message text (function `__name__`, argument
  reprs, ...) is abstracted away since no claim depends on it.
-/

namespace MultiTasksMgr

/-- Python runtime values, as far as the manager observes them. -/
inductive PyObj where
  | vstr (s : String)
  | vint (n : Int)
  | vbool (b : Bool)
  | vnone
deriving DecidableEq, Repr

/-- A raised Python exception, identified by its `str(...)` rendering. -/
structure PyExc where
  msg : String
deriving DecidableEq, Repr

/-- Python `==` on the values above: `bool` compares equal to `int`
(`True == 1`, `False == 0`), mirroring CPython semantics used by the
`taskType in (TASK_NO_RETURN, TASK_RETURN_VALUES)` membership test. -/
def pyEq : PyObj → PyObj → Bool
  | PyObj.vstr a, PyObj.vstr b => a == b
  | PyObj.vint a, PyObj.vint b => a == b
  | PyObj.vbool a, PyObj.vbool b => a == b
  | PyObj.vbool a, PyObj.vint b => (if a then (1 : Int) else 0) == b
  | PyObj.vint a, PyObj.vbool b => a == (if b then (1 : Int) else 0)
  | PyObj.vnone, PyObj.vnone => true
  | _, _ => false

/-- Python `str.lower()`, character by character (the strings involved are
ASCII). -/
def strLower (s : String) : String := ⟨s.data.map Char.toLower⟩

/-- The `.lower()` method call of line 94: defined on strings, raises
`AttributeError` on any other receiver. -/
def pyLower : PyObj → Except PyExc String
  | PyObj.vstr s => Except.ok (strLower s)
  | _ => Except.error ⟨"AttributeError: object has no attribute lower"⟩

/-- A registered callable: positional args and keyword args to outcome. -/
def PyFun : Type :=
  List PyObj → List (String × PyObj) → Except PyExc PyObj

/-- Keyword-argument lookup (`task_kwargs['log_level']`, with the membership
test `'log_level' in task_kwargs.keys()`). -/
def kwLookup (kwargs : List (String × PyObj)) (k : String) : Option PyObj :=
  (kwargs.find? (fun p => p.1 == k)).map Prod.snd

/-- Lines 80-83: the `log_level` value a task runs under — the value bound
in its keyword arguments when present, else the string `error`. -/
def effectiveLogLevel (kwargs : List (String × PyObj)) : PyObj :=
  match kwLookup kwargs "log_level" with
  | some v => v
  | none => PyObj.vstr "error"

/-- One item of `self.taskResults`: `(task_index, return_code, result)`
as deposited by `_run_task` (lines 90 and 93). -/
abbrev CompletionRecord : Type := Nat × Bool × PyObj

/-- The levels of logger calls issued by the manager.  `exceptionLog` is
`LOGGER.exception(...)`: an error-level record with stack context. -/
inductive LogEvent where
  | debugLog
  | traceLog
  | errorLog
  | exceptionLog
deriving DecidableEq, Repr

/-- What `register` hands to a `Thread`: the target args
`(task_fun, task_args, task_kwargs)` plus the `taskIndex` recorded in the
thread kwargs under the key `TASK_INDEX` (line 115). -/
structure TaskThread where
  fn : PyFun
  args : List PyObj
  kwargs : List (String × PyObj)
  index : Nat

/-- The arguments of one `register` call (a unit of work to register). -/
structure TaskSpec where
  fn : PyFun
  args : List PyObj
  kwargs : List (String × PyObj)

/-- The manager state: `self.taskResults` (the queue content, in deposit
order), `self.tasks`, `self.taskIndex`. -/
structure Manager where
  taskResults : List CompletionRecord
  tasks : List TaskThread
  taskIndex : Nat

/-- `_setup` (lines 126-134): fresh queue, empty task list, counter 1.
Also the state of a freshly constructed manager (`__init__` calls it). -/
def setup : Manager := ⟨[], [], 1⟩

/-- What one execution of `_run_task` in its own thread produces: the
records it put into `self.taskResults` (in order), the logger calls it
made, and the exception (if any) escaping the thread target — the re-raise
of line 98 escapes into the thread machinery and is never seen by the
caller of `runMultiTasks`. -/
structure RunTaskOutcome where
  deposited : List CompletionRecord
  logs : List LogEvent
  raised : Option PyExc

/-- `_run_task` (lines 51-98).  Reads `log_level` from the task kwargs
(default the string `error`), runs the callable on exactly the registered
args/kwargs, deposits `(index, True, result)` on normal return and
`(index, False, str(exc))` on any raised `BaseException`; on the failure
path it logs with `LOGGER.exception` when `log_level.lower() == 'error'`
and with `LOGGER.debug` otherwise (if `log_level` is not a string, the
`.lower()` call itself raises `AttributeError` after the record was
already deposited), then re-raises.  The success path makes three
debug-level logger calls (lines 86, 89, 91); the failure path makes the
line-86 debug call and then the one failure log. -/
def run_task (t : TaskThread) : RunTaskOutcome :=
  let log_level := effectiveLogLevel t.kwargs
  match t.fn t.args t.kwargs with
  | Except.ok result =>
      ⟨[(t.index, true, result)],
       [LogEvent.debugLog, LogEvent.debugLog, LogEvent.debugLog],
       none⟩
  | Except.error e =>
      match pyLower log_level with
      | Except.ok s =>
          ⟨[(t.index, false, PyObj.vstr e.msg)],
           [LogEvent.debugLog,
            if s == "error" then LogEvent.exceptionLog else LogEvent.debugLog],
           some e⟩
      | Except.error attrExc =>
          ⟨[(t.index, false, PyObj.vstr e.msg)],
           [LogEvent.debugLog],
           some attrExc⟩

/-- The `(succeeded, payload)` pair a call outcome turns into — the callable
result on success, `str(exception)` on failure. -/
def callOutcome : Except PyExc PyObj → Bool × PyObj
  | Except.ok v => (true, v)
  | Except.error e => (false, PyObj.vstr e.msg)

/-- The generated thread name (`Thread.getName()`, line 119) — an opaque
diagnostic handle; we model the generated name as a function of the
index at registration time. -/
def threadName (n : Nat) : String := "Thread-" ++ toString n

/-- `register` (lines 100-124): builds the thread for
`(task_fun, task_args, task_kwargs)` with the current `taskIndex` recorded
in the thread kwargs, appends it to `self.tasks`, logs a trace-level
description, increments `self.taskIndex`, and returns the thread name. -/
def register (m : Manager) (task_fun : PyFun) (task_args : List PyObj)
    (task_kwargs : List (String × PyObj)) : Manager × String :=
  let task_thread : TaskThread := ⟨task_fun, task_args, task_kwargs, m.taskIndex⟩
  (⟨m.taskResults, m.tasks ++ [task_thread], m.taskIndex + 1⟩,
   threadName m.taskIndex)

/-- A whole batch of `register` calls, in order. -/
def registerAll (m : Manager) (specs : List TaskSpec) : Manager :=
  specs.foldl (fun acc s => (register acc s.fn s.args s.kwargs).1) m

/-- The records all execution units of a batch deposit, one unit after the
other (the actual queue interleaves them; any permutation of this list is a
possible post-barrier queue content). -/
def taskRecords (tasks : List TaskThread) : List CompletionRecord :=
  (tasks.map (fun t => (run_task t).deposited)).flatten

/-- One step of building the `results` dict of `_checkTaskResult`
(line 159, `results[index] = (rc, result)`): Python dict assignment
overwrites an existing key in place and otherwise appends. -/
def dictInsert (d : List (Nat × (Bool × PyObj))) (k : Nat) (v : Bool × PyObj) :
    List (Nat × (Bool × PyObj)) :=
  if d.any (fun p => p.1 == k) then
    d.map (fun p => if p.1 == k then (k, v) else p)
  else
    d ++ [(k, v)]

/-- Python dict lookup `results[key]`; with unique keys the first match is
the only match. -/
def dictGet (d : List (Nat × (Bool × PyObj))) (k : Nat) : Option (Bool × PyObj) :=
  (d.find? (fun p => p.1 == k)).map Prod.snd

/-- The `results` dict after the drain loop of lines 156-159, fed the
queue content in drain (= deposit) order. -/
def dictOf (drained : List CompletionRecord) : List (Nat × (Bool × PyObj)) :=
  drained.foldl (fun d r => dictInsert d r.1 r.2) []

/-- The two shapes `_checkTaskResult` can return. -/
inductive RunResult where
  | rbool (b : Bool)
  | rlist (l : List (Bool × PyObj))
deriving DecidableEq, Repr

/-- `_checkTaskResult` (lines 136-165), applied to the drained queue
content: collects `returnCodes` and the `results` dict in drain order;
returns `all(returnCodes)` when `taskType == TASK_NO_RETURN` and otherwise
`[results[key] for key in sorted(results.keys())]`.  Every key of the
comprehension is a key of the dict, so the `filterMap` drops nothing. -/
def checkTaskResult (taskType : PyObj) (drained : List CompletionRecord) :
    RunResult :=
  let returnCodes := drained.map (fun r => r.2.1)
  let results := dictOf drained
  if pyEq taskType (PyObj.vint 0) then
    RunResult.rbool (returnCodes.all (fun b => b))
  else
    RunResult.rlist
      ((List.insertionSort (fun a b => a ≤ b) (results.map Prod.fst)).filterMap
        (fun k => dictGet results k))

/-- Errors `runMultiTasks` can raise to its caller.  On an unrecognized
mode, line 203 evaluates `msgs.TASK_TYPE_FAILURE` where the name `msgs` is
bound nowhere in the module, so the interpreter raises `NameError` before
the intended `raise MultiTasksManagerError` statement is reached. -/
inductive RunError where
  | nameError (missingName : String)
  | multiTasksManagerError (msg : String)
deriving DecidableEq, Repr

/-- The observable outcome of one `runMultiTasks` call: the value returned
or error raised, the manager state afterwards, and the list of tasks that
were started (`task.start()` calls, line 208). -/
structure RunOutcome where
  result : Except RunError RunResult
  finalState : Manager
  started : List TaskThread

/-- `runMultiTasks` (lines 167-216).  `taskType? = none` models an omitted
argument (Python default `None`), resolved to `TASK_NO_RETURN = 0`.  The
`sink` parameter is the content of `self.taskResults` once every started
thread has been joined: the deposits of the N execution units in the
nondeterministic order the scheduler produced (theorems constrain it to a
permutation of `taskRecords`).  An unrecognized mode raises before any
task is started and leaves the manager state untouched; otherwise all
tasks are started and joined, the result is computed by
`_checkTaskResult`, and `_setup` resets the shared state. -/
def runMultiTasks (m : Manager) (taskType? : Option PyObj)
    (sink : List CompletionRecord) : RunOutcome :=
  let taskType := taskType?.getD (PyObj.vint 0)
  if !(pyEq taskType (PyObj.vint 0) || pyEq taskType (PyObj.vint 1)) then
    ⟨Except.error (RunError.nameError "msgs"), m, []⟩
  else
    ⟨Except.ok (checkTaskResult taskType sink), setup, m.tasks⟩

/-- The thread list a batch of `register` calls builds when the counter
starts at `j`: the i-th spec becomes a thread with index `j + i`. -/
def mkThreads : Nat → List TaskSpec → List TaskThread
  | _, [] => []
  | j, s :: rest => ⟨s.fn, s.args, s.kwargs, j⟩ :: mkThreads (j + 1) rest

/-- The `(succeeded, payload)` pair of one registered unit of work. -/
def specOutcome (s : TaskSpec) : Bool × PyObj :=
  callOutcome (s.fn s.args s.kwargs)

/-- The completion records of a batch whose first task has index `j`. -/
def expectedRecords : Nat → List TaskSpec → List CompletionRecord
  | _, [] => []
  | j, s :: rest => (j, specOutcome s) :: expectedRecords (j + 1) rest

/- ### Basic lemmas about the execution unit and registration -/

theorem run_task_deposited (t : TaskThread) :
    (run_task t).deposited = [(t.index, callOutcome (t.fn t.args t.kwargs))] := by
  cases h : t.fn t.args t.kwargs with
  | ok v => simp [run_task, h, callOutcome]
  | error e =>
      cases hl : pyLower (effectiveLogLevel t.kwargs) with
      | ok s => simp [run_task, h, hl, callOutcome]
      | error a => simp [run_task, h, hl, callOutcome]

theorem taskRecords_cons (t : TaskThread) (ts : List TaskThread) :
    taskRecords (t :: ts) = (run_task t).deposited ++ taskRecords ts := by
  simp [taskRecords]

theorem registerAll_eq (specs : List TaskSpec) : ∀ (m : Manager),
    registerAll m specs =
      ⟨m.taskResults, m.tasks ++ mkThreads m.taskIndex specs,
       m.taskIndex + specs.length⟩ := by
  induction specs with
  | nil => intro m; simp [registerAll, mkThreads]
  | cons s rest ih =>
      intro m
      have h1 : registerAll m (s :: rest)
          = registerAll ⟨m.taskResults,
              m.tasks ++ [⟨s.fn, s.args, s.kwargs, m.taskIndex⟩],
              m.taskIndex + 1⟩ rest := rfl
      rw [h1, ih]
      simp [mkThreads, List.append_assoc, Manager.mk.injEq]
      omega

theorem taskRecords_mkThreads (specs : List TaskSpec) : ∀ (j : Nat),
    taskRecords (mkThreads j specs) = expectedRecords j specs := by
  induction specs with
  | nil => intro j; simp [taskRecords, mkThreads, expectedRecords]
  | cons s rest ih =>
      intro j
      show taskRecords (⟨s.fn, s.args, s.kwargs, j⟩ :: mkThreads (j + 1) rest) = _
      rw [taskRecords_cons, run_task_deposited, ih (j + 1)]
      simp [expectedRecords, specOutcome]

theorem mkThreads_map_index (specs : List TaskSpec) : ∀ (j : Nat),
    (mkThreads j specs).map TaskThread.index = List.range' j specs.length := by
  induction specs with
  | nil => intro j; simp [mkThreads]
  | cons s rest ih => intro j; simp [mkThreads, List.range'_succ, ih (j + 1)]

theorem expectedRecords_map_fst (specs : List TaskSpec) : ∀ (j : Nat),
    (expectedRecords j specs).map Prod.fst = List.range' j specs.length := by
  induction specs with
  | nil => intro j; simp [expectedRecords]
  | cons s rest ih => intro j; simp [expectedRecords, List.range'_succ, ih (j + 1)]

theorem expectedRecords_length (specs : List TaskSpec) (j : Nat) :
    (expectedRecords j specs).length = specs.length := by
  have h := congrArg List.length (expectedRecords_map_fst specs j)
  simpa using h

theorem expectedRecords_get_mem (specs : List TaskSpec) : ∀ (j k : Nat)
    (hk : k < specs.length),
    (j + k, specOutcome (specs.get ⟨k, hk⟩)) ∈ expectedRecords j specs := by
  induction specs with
  | nil => intro j k hk; simp at hk
  | cons s rest ih =>
      intro j k hk
      cases k with
      | zero => simp [expectedRecords]
      | succ k' =>
          have hk' : k' < rest.length := by simpa using hk
          have hmem := ih (j + 1) k' hk'
          have harith : j + (k' + 1) = (j + 1) + k' := by omega
          rw [harith]
          simpa [expectedRecords] using Or.inr hmem

/- ### The results dict of the reducer -/

theorem dictInsert_of_not_mem (d : List (Nat × (Bool × PyObj))) (k : Nat)
    (v : Bool × PyObj) (h : k ∉ d.map Prod.fst) :
    dictInsert d k v = d ++ [(k, v)] := by
  have hfalse : d.any (fun p => p.1 == k) = false := by
    rw [List.any_eq_false]
    intro p hp
    simp only [beq_iff_eq]
    intro hpk
    exact h (hpk ▸ List.mem_map_of_mem Prod.fst hp)
  simp [dictInsert, hfalse]

theorem dictOf_go (drained : List CompletionRecord) :
    ∀ (acc : List CompletionRecord),
    ((acc ++ drained).map Prod.fst).Nodup →
    drained.foldl (fun d r => dictInsert d r.1 r.2) acc = acc ++ drained := by
  induction drained with
  | nil => intro acc _; simp
  | cons r rest ih =>
      intro acc h
      have hknot : r.1 ∉ acc.map Prod.fst := by
        intro hmem
        rw [List.map_append] at h
        rcases List.nodup_append.mp h with ⟨_, _, hdisj⟩
        exact hdisj hmem (by simp)
      rw [List.foldl_cons, dictInsert_of_not_mem acc r.1 r.2 hknot]
      have hnext := ih (acc ++ [r]) (by simpa [List.append_assoc] using h)
      simpa [List.append_assoc] using hnext

theorem dictOf_eq_self (drained : List CompletionRecord)
    (h : (drained.map Prod.fst).Nodup) : dictOf drained = drained := by
  have hgo := dictOf_go drained [] (by simpa using h)
  simpa [dictOf] using hgo

theorem dictGet_of_mem (d : List (Nat × (Bool × PyObj))) : ∀ (k : Nat)
    (v : Bool × PyObj), (d.map Prod.fst).Nodup → (k, v) ∈ d →
    dictGet d k = some v := by
  induction d with
  | nil => intro k v _ hm; simp at hm
  | cons p rest ih =>
      intro k v hn hm
      rcases List.mem_cons.mp hm with hm | hm
      · subst hm
        simp [dictGet]
      · have hk : ¬(p.1 == k) = true := by
          simp only [beq_iff_eq]
          intro he
          have hkeys : k ∈ rest.map Prod.fst :=
            List.mem_map_of_mem Prod.fst hm
          rw [List.map_cons] at hn
          exact (List.nodup_cons.mp hn).1 (he ▸ hkeys)
        rw [List.map_cons] at hn
        have htail := ih k v (List.nodup_cons.mp hn).2 hm
        have hkf : (p.1 == k) = false := by simpa using hk
        unfold dictGet
        rw [List.find?_cons]
        simp only [hkf]
        exact htail

theorem dictGet_eq_some_iff_mem (d : List (Nat × (Bool × PyObj))) (k : Nat)
    (v : Bool × PyObj) (hget : dictGet d k = some v) : (k, v) ∈ d := by
  rcases Option.map_eq_some'.mp hget with ⟨a, hfind, hsnd⟩
  have hfst : a.1 = k := by
    have := List.find?_some hfind
    simpa [beq_iff_eq] using this
  have hmem := List.mem_of_find?_eq_some hfind
  have : (k, v) = a := by
    cases a
    simp only at hfst hsnd
    rw [hfst, hsnd]
  rwa [this]

theorem dictGet_perm (d₁ d₂ : List (Nat × (Bool × PyObj))) (hp : d₁.Perm d₂)
    (hn : (d₁.map Prod.fst).Nodup) (k : Nat) :
    dictGet d₁ k = dictGet d₂ k := by
  cases h2 : dictGet d₂ k with
  | none =>
      have hfind₂ : d₂.find? (fun p => p.1 == k) = none := by
        cases hf : d₂.find? (fun p => p.1 == k) with
        | none => rfl
        | some a => rw [dictGet, hf] at h2; simp at h2
      have hall := List.find?_eq_none.mp hfind₂
      have hfind₁ : d₁.find? (fun p => p.1 == k) = none := by
        rw [List.find?_eq_none]
        intro x hx
        exact hall x (hp.mem_iff.mp hx)
      simp [dictGet, hfind₁]
  | some v =>
      have hmem₂ : (k, v) ∈ d₂ := dictGet_eq_some_iff_mem d₂ k v h2
      have hmem₁ : (k, v) ∈ d₁ := hp.mem_iff.mpr hmem₂
      rw [dictGet_of_mem d₁ k v hn hmem₁]

/- ### Order restoration and aggregate conjunction -/

theorem perm_all {α : Type} (l₁ l₂ : List α) (f : α → Bool)
    (h : l₁.Perm l₂) : l₁.all f = l₂.all f := by
  rw [List.all_eq, List.all_eq, decide_eq_decide]
  constructor
  · intro hall x hx
    exact hall x (h.mem_iff.mpr hx)
  · intro hall x hx
    exact hall x (h.mem_iff.mp hx)

theorem sorted_le_range' (s n : Nat) :
    List.Sorted (fun a b => a ≤ b) (List.range' s n) :=
  List.pairwise_le_range' s n

theorem insertionSort_eq_range' (l : List Nat) (s n : Nat)
    (h : l.Perm (List.range' s n)) :
    List.insertionSort (fun a b => a ≤ b) l = List.range' s n :=
  List.eq_of_perm_of_sorted ((List.perm_insertionSort _ l).trans h)
    (List.sorted_insertionSort _ l) (sorted_le_range' s n)

theorem filterMap_dictGet_expected (specs : List TaskSpec) : ∀ (j : Nat),
    (List.range' j specs.length).filterMap
        (fun k => dictGet (expectedRecords j specs) k)
      = specs.map specOutcome := by
  induction specs with
  | nil => intro j; simp [expectedRecords]
  | cons sp rest ih =>
      intro j
      rw [List.length_cons, List.range'_succ]
      have hhead : dictGet (expectedRecords j (sp :: rest)) j
          = some (specOutcome sp) := by
        simp [expectedRecords, dictGet]
      have htail : ∀ k ∈ List.range' (j + 1) rest.length,
          dictGet (expectedRecords j (sp :: rest)) k
            = dictGet (expectedRecords (j + 1) rest) k := by
        intro k hk
        have hkf : (((j, specOutcome sp) : Nat × (Bool × PyObj)).1 == k) = false := by
          simp only [beq_eq_false_iff_ne, ne_eq]
          have hr := List.mem_range'_1.mp hk
          omega
        unfold dictGet
        rw [show expectedRecords j (sp :: rest)
              = (j, specOutcome sp) :: expectedRecords (j + 1) rest from rfl,
          List.find?_cons]
        simp only [hkf]
      rw [List.filterMap_cons_some hhead, List.filterMap_congr htail,
        ih (j + 1)]
      simp

theorem expectedRecords_map_flag (specs : List TaskSpec) : ∀ (j : Nat),
    (expectedRecords j specs).map (fun r => r.2.1)
      = specs.map (fun s => (specOutcome s).1) := by
  induction specs with
  | nil => intro j; simp [expectedRecords]
  | cons s rest ih => intro j; simp [expectedRecords, ih (j + 1)]

theorem registerAll_setup_tasks (specs : List TaskSpec) :
    (registerAll setup specs).tasks = mkThreads 1 specs := by
  rw [registerAll_eq]
  simp [setup]

theorem sink_perm_expected (specs : List TaskSpec) (sink : List CompletionRecord)
    (hperm : sink.Perm (taskRecords (registerAll setup specs).tasks)) :
    sink.Perm (expectedRecords 1 specs) := by
  rwa [registerAll_setup_tasks, taskRecords_mkThreads] at hperm

theorem sink_keys_perm (specs : List TaskSpec) (sink : List CompletionRecord)
    (hperm : sink.Perm (expectedRecords 1 specs)) :
    (sink.map Prod.fst).Perm (List.range' 1 specs.length) := by
  have h := hperm.map Prod.fst
  rwa [expectedRecords_map_fst] at h

theorem sink_keys_nodup (specs : List TaskSpec) (sink : List CompletionRecord)
    (hperm : sink.Perm (expectedRecords 1 specs)) :
    (sink.map Prod.fst).Nodup :=
  ((sink_keys_perm specs sink hperm).nodup_iff).mpr
    (List.nodup_range' 1 specs.length)

theorem all_map_id {α : Type} (l : List α) (g : α → Bool) :
    (l.map g).all (fun b => b) = l.all g := by
  induction l with
  | nil => rfl
  | cons x xs ih => simp [ih]

/-- The reducer in `TASK_NO_RETURN` mode, on any drain order of the records
of a batch: the conjunction of all succeeded flags, in registration terms. -/
theorem checkTaskResult_no_return (specs : List TaskSpec)
    (sink : List CompletionRecord)
    (hperm : sink.Perm (expectedRecords 1 specs)) :
    checkTaskResult (PyObj.vint 0) sink
      = RunResult.rbool (specs.all (fun s => (specOutcome s).1)) := by
  show RunResult.rbool ((sink.map (fun r => r.2.1)).all (fun b => b)) = _
  have hflags := perm_all _ _ (fun b => b) (hperm.map (fun r => r.2.1))
  rw [hflags, expectedRecords_map_flag specs 1, all_map_id]

/-- The reducer in `TASK_RETURN_VALUES` mode, on any drain order of the
records of a batch: the per-task outcomes in registration order. -/
theorem checkTaskResult_return_values (specs : List TaskSpec)
    (sink : List CompletionRecord)
    (hperm : sink.Perm (expectedRecords 1 specs)) :
    checkTaskResult (PyObj.vint 1) sink
      = RunResult.rlist (specs.map specOutcome) := by
  have hkeys := sink_keys_perm specs sink hperm
  have hnodup := sink_keys_nodup specs sink hperm
  have hdict : dictOf sink = sink := dictOf_eq_self sink hnodup
  show RunResult.rlist
      ((List.insertionSort (fun a b => a ≤ b) ((dictOf sink).map Prod.fst)).filterMap
        (fun k => dictGet (dictOf sink) k)) = _
  rw [hdict, insertionSort_eq_range' (sink.map Prod.fst) 1 specs.length hkeys]
  have hpt : ∀ k ∈ List.range' 1 specs.length,
      dictGet sink k = dictGet (expectedRecords 1 specs) k := by
    intro k _
    exact dictGet_perm sink (expectedRecords 1 specs) hperm hnodup k
  rw [List.filterMap_congr hpt, filterMap_dictGet_expected specs 1]

/- ### The claims -/

/-- C1: for every batch of N registered tasks run in TASK_RETURN_VALUES
mode, runMultiTasks returns a sequence of length exactly N whose element i
is the pair (succeeded_i, payload_i) of the i-th registered task, in
registration order, for every completion/deposit order of the sink. -/
theorem c1_return_values_registration_order (specs : List TaskSpec)
    (sink : List CompletionRecord)
    (hperm : sink.Perm (taskRecords (registerAll setup specs).tasks)) :
    (runMultiTasks (registerAll setup specs) (some (PyObj.vint 1)) sink).result
        = Except.ok (RunResult.rlist (specs.map specOutcome))
      ∧ (specs.map specOutcome).length = specs.length := by
  have hperm' := sink_perm_expected specs sink hperm
  constructor
  · have hres : (runMultiTasks (registerAll setup specs) (some (PyObj.vint 1))
        sink).result = Except.ok (checkTaskResult (PyObj.vint 1) sink) := rfl
    rw [hres, checkTaskResult_return_values specs sink hperm']
  · simp

theorem c1_witness :
    (runMultiTasks (registerAll setup
        [⟨fun _ _ => Except.ok (PyObj.vint 10), [], []⟩,
         ⟨fun _ _ => Except.error ⟨"boom"⟩, [], []⟩])
      (some (PyObj.vint 1))
      [(2, false, PyObj.vstr "boom"), (1, true, PyObj.vint 10)]).result
      = Except.ok (RunResult.rlist
          [(true, PyObj.vint 10), (false, PyObj.vstr "boom")]) :=
  (c1_return_values_registration_order
    [⟨fun _ _ => Except.ok (PyObj.vint 10), [], []⟩,
     ⟨fun _ _ => Except.error ⟨"boom"⟩, [], []⟩]
    [(2, false, PyObj.vstr "boom"), (1, true, PyObj.vint 10)] (by decide)).1

/-- C2: every execution unit deposits exactly one completion record, on the
success path and on the failure path alike, so any post-barrier sink
content of an N-task batch has exactly N records whose indices are exactly
1..N, with no duplicates and no omissions. -/
theorem c2_sink_exactly_once (specs : List TaskSpec)
    (sink : List CompletionRecord)
    (hperm : sink.Perm (taskRecords (registerAll setup specs).tasks)) :
    (∀ t ∈ (registerAll setup specs).tasks, (run_task t).deposited.length = 1)
      ∧ sink.length = specs.length
      ∧ (sink.map Prod.fst).Perm (List.range' 1 specs.length)
      ∧ (sink.map Prod.fst).Nodup := by
  have hperm' := sink_perm_expected specs sink hperm
  refine ⟨?_, ?_, sink_keys_perm specs sink hperm',
    sink_keys_nodup specs sink hperm'⟩
  · intro t _
    simp [run_task_deposited]
  · rw [hperm'.length_eq, expectedRecords_length]

theorem c2_witness :
    (([(2, false, PyObj.vstr "boom"), (1, true, PyObj.vint 10)] :
        List CompletionRecord).map Prod.fst).Perm (List.range' 1 2) :=
  (c2_sink_exactly_once
    [⟨fun _ _ => Except.ok (PyObj.vint 10), [], []⟩,
     ⟨fun _ _ => Except.error ⟨"boom"⟩, [], []⟩]
    [(2, false, PyObj.vstr "boom"), (1, true, PyObj.vint 10)]
    (by decide)).2.2.1

/-- C3: in TASK_NO_RETURN mode — also the mode used when no mode argument
is supplied — runMultiTasks returns the logical AND of all succeeded
flags: true iff zero tasks failed (vacuously true for N = 0), false if one
or more failed, for every completion order. -/
theorem c3_no_return_aggregate_and (specs : List TaskSpec)
    (sink : List CompletionRecord) (taskType? : Option PyObj)
    (hmode : taskType? = none ∨ taskType? = some (PyObj.vint 0))
    (hperm : sink.Perm (taskRecords (registerAll setup specs).tasks)) :
    (runMultiTasks (registerAll setup specs) taskType? sink).result
        = Except.ok (RunResult.rbool (specs.all (fun s => (specOutcome s).1)))
      ∧ (specs.all (fun s => (specOutcome s).1) = true
          ↔ ∀ s ∈ specs, (specOutcome s).1 = true) := by
  have hperm' := sink_perm_expected specs sink hperm
  refine ⟨?_, List.all_eq_true⟩
  rcases hmode with h | h
  · subst h
    have hres : (runMultiTasks (registerAll setup specs) none sink).result
        = Except.ok (checkTaskResult (PyObj.vint 0) sink) := rfl
    rw [hres, checkTaskResult_no_return specs sink hperm']
  · subst h
    have hres : (runMultiTasks (registerAll setup specs) (some (PyObj.vint 0))
        sink).result = Except.ok (checkTaskResult (PyObj.vint 0) sink) := rfl
    rw [hres, checkTaskResult_no_return specs sink hperm']

theorem c3_witness :
    (runMultiTasks (registerAll setup
        [⟨fun _ _ => Except.ok (PyObj.vint 10), [], []⟩,
         ⟨fun _ _ => Except.error ⟨"boom"⟩, [], []⟩])
      none [(2, false, PyObj.vstr "boom"), (1, true, PyObj.vint 10)]).result
      = Except.ok (RunResult.rbool false) :=
  (c3_no_return_aggregate_and
    [⟨fun _ _ => Except.ok (PyObj.vint 10), [], []⟩,
     ⟨fun _ _ => Except.error ⟨"boom"⟩, [], []⟩]
    [(2, false, PyObj.vstr "boom"), (1, true, PyObj.vint 10)]
    none (Or.inl rfl) (by decide)).1

/-- C4: a failure raised by a task callable never propagates to the caller
of runMultiTasks: the unit records (index, false, str(failure)) instead,
all sibling records are still present (the sink has all N records) and the
aggregate result is still produced. -/
theorem c4_task_failure_isolated (specs : List TaskSpec) (k : Nat)
    (hk : k < specs.length) (e : PyExc)
    (hfail : (specs.get ⟨k, hk⟩).fn (specs.get ⟨k, hk⟩).args
        (specs.get ⟨k, hk⟩).kwargs = Except.error e)
    (sink : List CompletionRecord)
    (hperm : sink.Perm (taskRecords (registerAll setup specs).tasks)) :
    (runMultiTasks (registerAll setup specs) none sink).result
        = Except.ok (RunResult.rbool (specs.all (fun s => (specOutcome s).1)))
      ∧ (k + 1, false, PyObj.vstr e.msg) ∈ sink
      ∧ sink.length = specs.length := by
  have hperm' := sink_perm_expected specs sink hperm
  refine ⟨?_, ?_, ?_⟩
  · have hres : (runMultiTasks (registerAll setup specs) none sink).result
        = Except.ok (checkTaskResult (PyObj.vint 0) sink) := rfl
    rw [hres, checkTaskResult_no_return specs sink hperm']
  · have hmem := expectedRecords_get_mem specs 1 k hk
    rw [show specOutcome (specs.get ⟨k, hk⟩)
          = (false, PyObj.vstr e.msg) by rw [specOutcome, hfail]; rfl] at hmem
    have h1k : 1 + k = k + 1 := by omega
    rw [h1k] at hmem
    exact hperm'.mem_iff.mpr hmem
  · rw [hperm'.length_eq, expectedRecords_length]

theorem c4_witness :
    ((1 : Nat) + 1, false, PyObj.vstr "boom")
      ∈ ([(2, false, PyObj.vstr "boom"), (1, true, PyObj.vint 10)] :
          List CompletionRecord) :=
  (c4_task_failure_isolated
    [⟨fun _ _ => Except.ok (PyObj.vint 10), [], []⟩,
     ⟨fun _ _ => Except.error ⟨"boom"⟩, [], []⟩]
    1 (by decide) ⟨"boom"⟩ rfl
    [(2, false, PyObj.vstr "boom"), (1, true, PyObj.vint 10)]
    (by decide)).2.1

/-- C5: what the code actually does on an unrecognized mode: it raises
synchronously before any task is started and leaves the manager state
untouched, but the error is a NameError (the module never binds the name
`msgs` used to build the message on line 203), not the distinguished
MultiTasksManagerError the spec promises. -/
theorem c5_invalid_mode_code_behavior (m : Manager)
    (sink : List CompletionRecord) :
    runMultiTasks m (some (PyObj.vint 2)) sink
        = ⟨Except.error (RunError.nameError "msgs"), m, []⟩
      ∧ (runMultiTasks m (some (PyObj.vint 2)) sink).started = []
      ∧ (runMultiTasks m (some (PyObj.vint 2)) sink).finalState = m
      ∧ ∀ s : String,
          RunError.nameError "msgs" ≠ RunError.multiTasksManagerError s :=
  ⟨rfl, rfl, rfl, fun _ h => RunError.noConfusion h⟩

/-- C6: every dispatching runMultiTasks call resets the shared state before
returning: task list emptied, index counter restored to 1, sink cleared,
so a subsequent batch of registrations gets indices starting from 1. -/
theorem c6_state_reset_after_dispatch (m : Manager) (taskType? : Option PyObj)
    (sink : List CompletionRecord)
    (hvalid : (pyEq (taskType?.getD (PyObj.vint 0)) (PyObj.vint 0)
        || pyEq (taskType?.getD (PyObj.vint 0)) (PyObj.vint 1)) = true) :
    (runMultiTasks m taskType? sink).finalState = setup
      ∧ setup.tasks = [] ∧ setup.taskIndex = 1 ∧ setup.taskResults = []
      ∧ ∀ specs : List TaskSpec,
          (registerAll setup specs).tasks.map TaskThread.index
            = List.range' 1 specs.length := by
  refine ⟨?_, rfl, rfl, rfl, ?_⟩
  · simp [runMultiTasks, hvalid]
  · intro specs
    rw [registerAll_setup_tasks]
    exact mkThreads_map_index specs 1

theorem c6_witness :
    (runMultiTasks setup none []).finalState = setup :=
  (c6_state_reset_after_dispatch setup none [] (by decide)).1

/-- C7: within one batch, register assigns indices 1..N — unique, dense,
gap-free, increasing in registration order; each call stores the current
counter in the new task, increments the counter by one, and returns the
generated thread-name handle. -/
theorem c7_register_index_assignment (specs : List TaskSpec) :
    (registerAll setup specs).tasks.map TaskThread.index
        = List.range' 1 specs.length
      ∧ (registerAll setup specs).taskIndex = specs.length + 1
      ∧ ∀ (m : Manager) (f : PyFun) (a : List PyObj)
          (kw : List (String × PyObj)),
          (register m f a kw).1.tasks = m.tasks ++ [⟨f, a, kw, m.taskIndex⟩]
            ∧ (register m f a kw).1.taskIndex = m.taskIndex + 1
            ∧ (register m f a kw).2 = threadName m.taskIndex := by
  refine ⟨?_, ?_, ?_⟩
  · rw [registerAll_setup_tasks]
    exact mkThreads_map_index specs 1
  · rw [registerAll_eq]
    show 1 + specs.length = specs.length + 1
    omega
  · intro m f a kw
    exact ⟨rfl, rfl, rfl⟩

/-- C8 counterexample: with log_level the string "ERROR" — a value other
than "error" — the failure is still logged with the full diagnostic
(LOGGER.exception), not the low-verbosity debug log the claim promises for
every value other than "error": the comparison on line 94 lowercases the
value first. -/
theorem c8_counterexample :
    effectiveLogLevel [("log_level", PyObj.vstr "ERROR")] = PyObj.vstr "ERROR"
      ∧ PyObj.vstr "ERROR" ≠ PyObj.vstr "error"
      ∧ (run_task ⟨fun _ _ => Except.error ⟨"boom"⟩, [],
            [("log_level", PyObj.vstr "ERROR")], 1⟩).logs
          = [LogEvent.debugLog, LogEvent.exceptionLog]
      ∧ LogEvent.exceptionLog ≠ LogEvent.debugLog :=
  ⟨rfl, by decide, by decide, by decide⟩

/-- C8 (amended): the per-task log_level option (read from the task keyword
arguments, defaulting to "error") controls only the verbosity of the
failure log — the full diagnostic when the value lowercases to "error",
the low-verbosity debug log for any other string — and never whether the
failure record is deposited: the record is deposited on the failure path
for every log_level value. -/
theorem c8_log_level_amended (t : TaskThread) (e : PyExc)
    (hfail : t.fn t.args t.kwargs = Except.error e) :
    (run_task t).deposited = [(t.index, false, PyObj.vstr e.msg)]
      ∧ ∀ s : String, effectiveLogLevel t.kwargs = PyObj.vstr s →
          (run_task t).logs
            = [LogEvent.debugLog,
               if strLower s == "error" then LogEvent.exceptionLog
               else LogEvent.debugLog] := by
  constructor
  · rw [run_task_deposited, hfail]
    rfl
  · intro s hs
    simp [run_task, hfail, hs, pyLower]

theorem c8_witness :
    (run_task ⟨fun _ _ => Except.error ⟨"boom"⟩, [],
        [("log_level", PyObj.vstr "debug")], 3⟩).deposited
      = [(3, false, PyObj.vstr "boom")] :=
  (c8_log_level_amended
    ⟨fun _ _ => Except.error ⟨"boom"⟩, [],
     [("log_level", PyObj.vstr "debug")], 3⟩ ⟨"boom"⟩ rfl).1

/-- C9: the execution unit invokes the registered callable with exactly the
registered positional and keyword arguments; log_level is read for logging
but not removed, so a callable registered with log_level receives it. -/
theorem c9_kwargs_passthrough (m : Manager) (f : PyFun) (a : List PyObj)
    (kw : List (String × PyObj)) (v : PyObj)
    (hv : kwLookup kw "log_level" = some v) :
    ∃ t : TaskThread,
      (register m f a kw).1.tasks = m.tasks ++ [t]
        ∧ t.fn = f ∧ t.args = a ∧ t.kwargs = kw
        ∧ kwLookup t.kwargs "log_level" = some v
        ∧ (run_task t).deposited = [(t.index, callOutcome (f a kw))] :=
  ⟨⟨f, a, kw, m.taskIndex⟩, rfl, rfl, rfl, rfl, hv, run_task_deposited _⟩

theorem c9_witness :
    ∃ t : TaskThread,
      (register setup
          (fun _ kw => Except.ok ((kwLookup kw "log_level").getD PyObj.vnone))
          [] [("log_level", PyObj.vstr "debug")]).1.tasks = setup.tasks ++ [t]
        ∧ t.fn = (fun _ kw =>
            Except.ok ((kwLookup kw "log_level").getD PyObj.vnone))
        ∧ t.args = [] ∧ t.kwargs = [("log_level", PyObj.vstr "debug")]
        ∧ kwLookup t.kwargs "log_level" = some (PyObj.vstr "debug")
        ∧ (run_task t).deposited = [(t.index, true, PyObj.vstr "debug")] :=
  c9_kwargs_passthrough setup
    (fun _ kw => Except.ok ((kwLookup kw "log_level").getD PyObj.vnone))
    [] [("log_level", PyObj.vstr "debug")] (PyObj.vstr "debug") rfl

/-- C10: the result reducer is deterministic in the drain order — for every
two drain orders of the same multiset of completion records with
pairwise-distinct indices, _checkTaskResult returns the same value, in
both recognized modes (the mode argument is arbitrary here). -/
theorem c10_reducer_drain_order_deterministic (l₁ l₂ : List CompletionRecord)
    (taskType : PyObj) (hperm : l₁.Perm l₂)
    (hnodup : (l₁.map Prod.fst).Nodup) :
    checkTaskResult taskType l₁ = checkTaskResult taskType l₂ := by
  have hnodup₂ : (l₂.map Prod.fst).Nodup :=
    ((hperm.map Prod.fst).nodup_iff).mp hnodup
  by_cases h0 : pyEq taskType (PyObj.vint 0) = true
  · simp only [checkTaskResult, h0, if_true]
    exact congrArg RunResult.rbool (perm_all _ _ _ (hperm.map _))
  · simp only [checkTaskResult, h0, if_false]
    rw [dictOf_eq_self l₁ hnodup, dictOf_eq_self l₂ hnodup₂]
    have hsort : List.insertionSort (fun a b => a ≤ b) (l₁.map Prod.fst)
        = List.insertionSort (fun a b => a ≤ b) (l₂.map Prod.fst) :=
      List.eq_of_perm_of_sorted
        ((List.perm_insertionSort _ _).trans
          ((hperm.map Prod.fst).trans (List.perm_insertionSort _ _).symm))
        (List.sorted_insertionSort _ _) (List.sorted_insertionSort _ _)
    rw [hsort]
    exact congrArg RunResult.rlist
      (List.filterMap_congr (fun k _ => dictGet_perm l₁ l₂ hperm hnodup k))

theorem c10_witness :
    checkTaskResult (PyObj.vint 1)
        [(1, true, PyObj.vint 10), (2, false, PyObj.vstr "boom")]
      = checkTaskResult (PyObj.vint 1)
        [(2, false, PyObj.vstr "boom"), (1, true, PyObj.vint 10)] :=
  c10_reducer_drain_order_deterministic
    [(1, true, PyObj.vint 10), (2, false, PyObj.vstr "boom")]
    [(2, false, PyObj.vstr "boom"), (1, true, PyObj.vint 10)]
    (PyObj.vint 1) (by decide) (by decide)

end MultiTasksMgr
